import Mathlib

/-!
Shallow embedding of the multivariate-linear-regression strategy module
(MinMaxScaler, indicator helpers, feature builder, strategy runner) over
exact rational arithmetic.  JS numbers are modelled as `Option ℚ` where the
`none` value stands for NaN (and for the NaN produced by arithmetic on an
`undefined` array lookup); pure in-range numeric code works on plain `ℚ`.
The linear-regression solver itself is an external collaborator and is not
modelled; the strategy runner is embedded up to the construction and
scaling of the prediction row.
-/

/-- JS numeric value: `none` models NaN (and `undefined` entering arithmetic,
which immediately becomes NaN in the source's expressions). -/
abbrev JsNum := Option ℚ

/-- JS subtraction: NaN propagates. `undefined - x` is NaN, modelled by `none`. -/
def jsSub : JsNum → JsNum → JsNum
  | some a, some b => some (a - b)
  | _, _ => none

/-- JS addition: NaN propagates. -/
def jsAdd : JsNum → JsNum → JsNum
  | some a, some b => some (a + b)
  | _, _ => none

/-- JS multiplication: NaN propagates. -/
def jsMul : JsNum → JsNum → JsNum
  | some a, some b => some (a * b)
  | _, _ => none

/-- JS division: NaN propagates.  Division by zero (which the source guards
against wherever it can arise) is mapped to `none` as a junk value. -/
def jsDiv : JsNum → JsNum → JsNum
  | some a, some b => if b = 0 then none else some (a / b)
  | _, _ => none

/-- The data structure for daily stock information (interface IntradayData). -/
structure IntradayData where
  «open» : ℚ
  high : ℚ
  low : ℚ
  close : ℚ
  volume : ℚ
deriving DecidableEq, Inhabited

/-- Lookback period for indicators like ATR and RSI (const LOOKBACK_PERIOD). -/
def LOOKBACK_PERIOD : ℕ := 14

/-- Short period for simpler moving averages (const SHORT_PERIOD). -/
def SHORT_PERIOD : ℕ := 5

/-- Models `Array.prototype.map` with the element index as second callback argument,
made explicit: `mapIdxFrom f j l` applies `f` to indices starting at `j`. -/
def mapIdxFrom (f : ℕ → α → β) : ℕ → List α → List β
  | _, [] => []
  | j, v :: vs => f j v :: mapIdxFrom f (j + 1) vs

/-- Helper class for Min-Max Scaling: per-column minimum and maximum. -/
structure MinMaxScaler where
  min : List ℚ
  max : List ℚ
deriving DecidableEq

/-- Column minimum over a data matrix.  The source seeds the fold with
`Infinity` and folds `Math.min` over every row; on nonempty data this equals
seeding with the first row's entry and folding over the rest. -/
def colMin (data : List (List ℚ)) (j : ℕ) : ℚ :=
  match data with
  | [] => 0
  | r :: rest => rest.foldl (fun acc row => min acc (row.getD j 0)) (r.getD j 0)

/-- Column maximum over a data matrix (fold of `Math.max` seeded `-Infinity`). -/
def colMax (data : List (List ℚ)) (j : ℕ) : ℚ :=
  match data with
  | [] => 0
  | r :: rest => rest.foldl (fun acc row => max acc (row.getD j 0)) (r.getD j 0)

/-- The `MinMaxScaler` constructor: per-column min and max for each of the
`numFeatures = data[0].length` columns; empty data yields empty scaler. -/
def MinMaxScaler.fit (data : List (List ℚ)) : MinMaxScaler :=
  match data with
  | [] => ⟨[], []⟩
  | r :: rest =>
    ⟨(List.range r.length).map (colMin (r :: rest)),
     (List.range r.length).map (colMax (r :: rest))⟩

/-- Embeds `scale(dataPoint)`: per element, `range = max[j] - min[j]`; if
`range === 0` return 0.5, else `(value - min[j]) / range`.  An out-of-range
column lookup is `undefined`, so `range` is NaN, the `=== 0` test is false,
and the division yields NaN (`none`). -/
def MinMaxScaler.scale (s : MinMaxScaler) (dataPoint : List JsNum) : List JsNum :=
  mapIdxFrom (fun j value =>
    let range := jsSub (s.max[j]?) (s.min[j]?)
    if range = some 0 then some (1 / 2)
    else jsDiv (jsSub value (s.min[j]?)) range) 0 dataPoint

/-- Embeds `scaleAll(data)`: maps `scale` over the rows. -/
def MinMaxScaler.scaleAll (s : MinMaxScaler) (data : List (List JsNum)) : List (List JsNum) :=
  data.map s.scale

/-- Embeds `inverseScale(scaledDataPoint)`: per element,
`scaledValue * (max[j] - min[j]) + min[j]`. -/
def MinMaxScaler.inverseScale (s : MinMaxScaler) (scaledDataPoint : List JsNum) : List JsNum :=
  mapIdxFrom (fun j scaledValue =>
    let range := jsSub (s.max[j]?) (s.min[j]?)
    jsAdd (jsMul scaledValue range) (s.min[j]?)) 0 scaledDataPoint

/-- Embeds `calculateTrueRange(today, yesterdayClose)`:
`Math.max(high - low, |high - prevClose|, |low - prevClose|)`. -/
def calculateTrueRange (today : IntradayData) (yesterdayClose : ℚ) : ℚ :=
  max (today.high - today.low)
    (max |today.high - yesterdayClose| |today.low - yesterdayClose|)

/-- Embeds `calculateATR(data, index, period)`: 0 when `index < period`, else the
sum of true ranges for `i` in `[index - period, index)` divided by `period`;
`yesterdayClose` is `data[i-1].close`, or `data[i].close` when `i === 0`. -/
def calculateATR (data : List IntradayData) (index period : ℕ) : ℚ :=
  if index < period then 0
  else
    (((List.range period).map (fun k =>
      let i := index - period + k
      let yesterdayClose :=
        if i = 0 then (data.getD i default).close else (data.getD (i - 1) default).close
      calculateTrueRange (data.getD i default) yesterdayClose)).sum) / period

/-- Embeds `calculateSMA(data, index, period)`: when `index < period` returns
`data[index]?.close || 0` (optional access with 0 fallback), else the mean of
the closes over `[index - period, index)`. -/
def calculateSMA (data : List IntradayData) (index period : ℕ) : ℚ :=
  if index < period then ((data[index]?).map IntradayData.close).getD 0
  else
    (((List.range period).map (fun k =>
      (data.getD (index - period + k) default).close)).sum) / period

/-- The day-over-day close change read by the RSI loop:
`data[i].close - data[i-1].close`. -/
def rsiChange (data : List IntradayData) (i : ℕ) : ℚ :=
  (data.getD i default).close - (data.getD (i - 1) default).close

/-- Embeds `calculateRSI(data, index, period)`: 50 when `index < period`; otherwise
sums positive changes (gains) and absolute non-positive changes (losses) of
`data[i].close - data[i-1].close` for `i` in `[index - period + 1, index]`,
divides both by `period`, returns 100 when the average loss is 0, else
`100 - 100 / (1 + avgGain / avgLoss)`. -/
def calculateRSI (data : List IntradayData) (index period : ℕ) : ℚ :=
  if index < period then 50
  else
    let avgGain := (((List.range period).map (fun k =>
      if 0 < rsiChange data (index - period + 1 + k)
      then rsiChange data (index - period + 1 + k) else 0)).sum) / period
    let avgLoss := (((List.range period).map (fun k =>
      if 0 < rsiChange data (index - period + 1 + k)
      then 0 else |rsiChange data (index - period + 1 + k)|)).sum) / period
    if avgLoss = 0 then 100 else 100 - 100 / (1 + avgGain / avgLoss)

/-- One iteration of the feature loop in `prepareLaggedData`: the 9-entry
feature row for day `i` ("today" = `data[i]`, "yesterday" = `data[i-1]`). -/
def featureRow (data : List IntradayData) (i : ℕ) : List ℚ :=
  let today := data.getD i default
  let yesterday := data.getD (i - 1) default
  let yesterdayPP := (yesterday.high + yesterday.low + yesterday.close) / 3
  [today.«open»,
   yesterday.close,
   yesterday.high,
   yesterday.low,
   yesterdayPP,
   yesterday.volume,
   calculateATR data i LOOKBACK_PERIOD,
   calculateRSI data (i - 1) LOOKBACK_PERIOD,
   calculateSMA data i SHORT_PERIOD]

/-- Embeds `prepareLaggedData(data)`: empty when `data.length <= LOOKBACK_PERIOD`,
else one `(features, [today.close])` pair for each `i` from `LOOKBACK_PERIOD`
to `data.length - 1`. -/
def prepareLaggedData (data : List IntradayData) :
    List (List ℚ) × List (List ℚ) :=
  if data.length ≤ LOOKBACK_PERIOD then ([], [])
  else
    ((List.range (data.length - LOOKBACK_PERIOD)).map
       (fun k => featureRow data (LOOKBACK_PERIOD + k)),
     (List.range (data.length - LOOKBACK_PERIOD)).map
       (fun k => [(data.getD (LOOKBACK_PERIOD + k) default).close]))

/-- Embeds `flattenY(Y)`: maps each label row to `[row[0]]`. -/
def flattenY (Y : List (List ℚ)) : List (List ℚ) :=
  Y.map (fun row => [row.getD 0 0])

/-- Errors reported by `mrlRunStrategy` before a prediction is attempted
(console.error / early-return paths of the source). -/
inductive StrategyError where
  | insufficientData : StrategyError
  | noFeatures : StrategyError
deriving DecidableEq

/-- Observable state of a strategy run, up to the scaled prediction row.
The regression fit and its prediction are the excluded external solver. -/
structure StrategyTrace where
  X_raw : List (List ℚ)
  Y_raw : List (List ℚ)
  featureScaler : MinMaxScaler
  labelScaler : MinMaxScaler
  predictionRowRaw : List ℚ
  predictionRowScaled : List JsNum
deriving DecidableEq

/-- The raw 9-entry prediction row built by `mrlRunStrategy` for the
evaluation day: feature 1 is `newOpenPrice ?? dayToEvaluate.open`, the rest
come from the previous day and from the indicators evaluated at the end of
the history `excelData.slice(0, length - 1)`. -/
def lastDayFeaturesRaw (excelData : List IntradayData) (newOpenPrice : Option ℚ) : List ℚ :=
  let dayToEvaluate := excelData.getD (excelData.length - 1) default
  let dayProvidingLaggedFeatures := excelData.getD (excelData.length - 2) default
  let entireHistoryUpToPreviousDay := excelData.take (excelData.length - 1)
  let fullHistoryLength := entireHistoryUpToPreviousDay.length
  let previousDayPP := (dayProvidingLaggedFeatures.high +
    dayProvidingLaggedFeatures.low + dayProvidingLaggedFeatures.close) / 3
  [newOpenPrice.getD dayToEvaluate.«open»,
   dayProvidingLaggedFeatures.close,
   dayProvidingLaggedFeatures.high,
   dayProvidingLaggedFeatures.low,
   previousDayPP,
   dayProvidingLaggedFeatures.volume,
   calculateATR entireHistoryUpToPreviousDay fullHistoryLength LOOKBACK_PERIOD,
   calculateRSI entireHistoryUpToPreviousDay (fullHistoryLength - 1) LOOKBACK_PERIOD,
   calculateSMA entireHistoryUpToPreviousDay fullHistoryLength SHORT_PERIOD]

/-- Embeds `mrlRunStrategy(excelData, newOpenPrice)`, up to the scaling of
the prediction row: validation, training-set split, feature preparation,
scaler fitting and prediction-row construction follow the source; the MLR
fit/predict/inverse-scale of the single output are the external solver's. -/
def mrlRunStrategy (excelData : List IntradayData) (newOpenPrice : Option ℚ) :
    Except StrategyError StrategyTrace :=
  if excelData.length < LOOKBACK_PERIOD + 2 then .error .insufficientData
  else
    let trainingSet := excelData.take (excelData.length - 1)
    let P := prepareLaggedData trainingSet
    if P.1.length = 0 then .error .noFeatures
    else
      .ok ⟨P.1, P.2,
        MinMaxScaler.fit P.1,
        MinMaxScaler.fit (P.2.map (fun row => [row.getD 0 0])),
        lastDayFeaturesRaw excelData newOpenPrice,
        (MinMaxScaler.fit P.1).scale ((lastDayFeaturesRaw excelData newOpenPrice).map some)⟩

/-- Extract the trace of a successful run (default trace on error). -/
def okTraceD (e : Except StrategyError StrategyTrace) : StrategyTrace :=
  match e with
  | .ok t => t
  | .error _ => ⟨[], [], ⟨[], []⟩, ⟨[], []⟩, [], []⟩

/-- Bar indices read unconditionally by `calculateATR data index period`:
nothing when `index < period`; otherwise, for each loop index `i` in
`[index - period, index)`, the bar `i` itself plus (when `i ≠ 0`) bar
`i - 1` for `yesterdayClose`. -/
def atrAccesses (index period : ℕ) : List ℕ :=
  if index < period then []
  else ((List.range period).map (fun k =>
    let i := index - period + k
    if i = 0 then [i] else [i, i - 1])).flatten

/-- Bar indices read unconditionally by `calculateSMA data index period`:
nothing when `index < period` (that branch's `data[index]?.close || 0` is an
optional access), else the window `[index - period, index)`. -/
def smaAccesses (index period : ℕ) : List ℕ :=
  if index < period then []
  else (List.range period).map (fun k => index - period + k)

/-- A 2-row, 10-column fitting matrix (every column has range 1). -/
def mat10ex : List (List ℚ) :=
  [[0, 0, 0, 0, 0, 0, 0, 0, 0, 0], [1, 1, 1, 1, 1, 1, 1, 1, 1, 1]]

/-- A 9-wide row fed to the 10-column-fitted scaler. -/
def row9ex : List ℚ := [0, 1, 0, 1, 0, 1, 0, 1, 0]

/-- Bar constructor helper for concrete inputs. -/
def mkBar (o h l c v : ℚ) : IntradayData := ⟨o, h, l, c, v⟩

/-- A concrete 16-bar history used by the scenario witnesses. -/
def bars16 : List IntradayData :=
  [mkBar 1 2 0 1 5, mkBar 2 3 1 2 5, mkBar 3 4 2 3 5, mkBar 4 5 3 4 5,
   mkBar 5 6 4 5 5, mkBar 6 7 5 6 5, mkBar 7 8 6 7 5, mkBar 8 9 7 8 5,
   mkBar 9 10 8 9 5, mkBar 10 11 9 10 5, mkBar 11 12 10 11 5, mkBar 12 13 11 12 5,
   mkBar 13 14 12 13 5, mkBar 14 15 13 14 5, mkBar 15 16 14 15 5, mkBar 16 17 15 16 5]

/-- The first 15 of those bars. -/
def bars15 : List IntradayData := bars16.take 15

/-- A concrete 3-bar history with non-decreasing closes. -/
def w3bars : List IntradayData :=
  [mkBar 1 2 0 1 1, mkBar 2 3 1 2 1, mkBar 3 4 2 3 1]

theorem mapIdxFrom_length (f : ℕ → α → β) (j : ℕ) (l : List α) :
    (mapIdxFrom f j l).length = l.length := by
  induction l generalizing j with
  | nil => rfl
  | cons v vs ih => simp [mapIdxFrom, ih]

theorem mapIdxFrom_getElem? (f : ℕ → α → β) (j k : ℕ) (l : List α) :
    (mapIdxFrom f j l)[k]? = (l[k]?).map (f (j + k)) := by
  induction l generalizing j k with
  | nil =>
    show (([] : List β))[k]? = (([] : List α))[k]?.map (f (j + k))
    simp
  | cons v vs ih =>
    cases k with
    | zero =>
      show (f j v :: mapIdxFrom f (j + 1) vs)[0]? = ((v :: vs))[0]?.map (f (j + 0))
      simp
    | succ k =>
      show (f j v :: mapIdxFrom f (j + 1) vs)[k + 1]? = ((v :: vs))[k + 1]?.map (f (j + (k + 1)))
      rw [List.getElem?_cons_succ, List.getElem?_cons_succ, ih (j + 1) k]
      have h : j + 1 + k = j + (k + 1) := by omega
      rw [h]

theorem fit_min_getElem? (r : List ℚ) (rest : List (List ℚ)) (j : ℕ) (hj : j < r.length) :
    (MinMaxScaler.fit (r :: rest)).min[j]? = some (colMin (r :: rest) j) := by
  show ((List.range r.length).map (colMin (r :: rest)))[j]? = _
  rw [List.getElem?_map, List.getElem?_range hj]
  rfl

theorem fit_max_getElem? (r : List ℚ) (rest : List (List ℚ)) (j : ℕ) (hj : j < r.length) :
    (MinMaxScaler.fit (r :: rest)).max[j]? = some (colMax (r :: rest) j) := by
  show ((List.range r.length).map (colMax (r :: rest)))[j]? = _
  rw [List.getElem?_map, List.getElem?_range hj]
  rfl

theorem scale_getElem? (s : MinMaxScaler) (l : List JsNum) (j : ℕ) :
    (s.scale l)[j]? = (l[j]?).map (fun value =>
      if jsSub (s.max[j]?) (s.min[j]?) = some 0 then some (1 / 2)
      else jsDiv (jsSub value (s.min[j]?)) (jsSub (s.max[j]?) (s.min[j]?))) := by
  simp only [MinMaxScaler.scale, mapIdxFrom_getElem?, Nat.zero_add]

theorem inverseScale_getElem? (s : MinMaxScaler) (l : List JsNum) (j : ℕ) :
    (s.inverseScale l)[j]? = (l[j]?).map (fun value =>
      jsAdd (jsMul value (jsSub (s.max[j]?) (s.min[j]?))) (s.min[j]?)) := by
  simp only [MinMaxScaler.inverseScale, mapIdxFrom_getElem?, Nat.zero_add]

/-- C1: for every matrix fitted by `MinMaxScaler` and every row of that
fitting matrix, `inverseScale (scale row)` returns the original entry in
every column `j` with `max[j] > min[j]`, and returns `min[j]` in every
degenerate column with `max[j] = min[j]` (the 0.5 case), under exact
rational arithmetic. -/
theorem minMaxScaler_roundtrip (data : List (List ℚ)) (row : List ℚ) (j : ℕ) (v : ℚ)
    (hmem : row ∈ data)
    (hw : ∀ r ∈ data, r.length = data.headI.length)
    (hv : row[j]? = some v) :
    (colMin data j < colMax data j →
      ((MinMaxScaler.fit data).inverseScale
          ((MinMaxScaler.fit data).scale (row.map some)))[j]? = some (some v)) ∧
    (colMin data j = colMax data j →
      ((MinMaxScaler.fit data).inverseScale
          ((MinMaxScaler.fit data).scale (row.map some)))[j]? =
        some (some (colMin data j))) := by
  obtain ⟨hjrow, -⟩ := List.getElem?_eq_some.mp hv
  cases data with
  | nil => cases hmem
  | cons r rest =>
    have hlen : row.length = r.length := by simpa using hw row hmem
    have hj : j < r.length := hlen ▸ hjrow
    have hmin := fit_min_getElem? r rest j hj
    have hmax := fit_max_getElem? r rest j hj
    have hrowj : (row.map some)[j]? = some (some v) := by
      rw [List.getElem?_map, hv]
      rfl
    set mn := colMin (r :: rest) j with hmndef
    set mx := colMax (r :: rest) j with hmxdef
    have hentry : ((MinMaxScaler.fit (r :: rest)).inverseScale
        ((MinMaxScaler.fit (r :: rest)).scale (row.map some)))[j]? =
        some (jsAdd (jsMul (if mx - mn = 0 then some (1 / 2)
            else jsDiv (some (v - mn)) (some (mx - mn))) (some (mx - mn))) (some mn)) := by
      rw [inverseScale_getElem?, scale_getElem?, hrowj]
      simp [hmin, hmax, jsSub]
    constructor
    · intro hlt
      have hne : mx - mn ≠ 0 := sub_ne_zero.mpr (ne_of_gt hlt)
      rw [hentry]
      simp only [if_neg hne, jsDiv, if_neg hne, jsMul, jsAdd]
      rw [div_mul_cancel₀ _ hne]
      norm_num
    · intro heq
      have h0 : mx - mn = 0 := sub_eq_zero_of_eq heq.symm
      rw [hentry]
      simp [h0, jsMul, jsAdd]

/-- Witness for C1 at a concrete 2-column matrix (column 0 non-degenerate). -/
theorem minMaxScaler_roundtrip_witness :
    colMin [[(1 : ℚ), 2], [3, 2]] 0 < colMax [[(1 : ℚ), 2], [3, 2]] 0 ∧
    ((MinMaxScaler.fit [[(1 : ℚ), 2], [3, 2]]).inverseScale
        ((MinMaxScaler.fit [[(1 : ℚ), 2], [3, 2]]).scale ([(1 : ℚ), 2].map some)))[0]? =
      some (some 1) :=
  ⟨by decide, (minMaxScaler_roundtrip [[(1 : ℚ), 2], [3, 2]] [1, 2] 0 1 (by decide)
      (by decide) (by decide)).1 (by decide)⟩

theorem jsSub_none_right (x : JsNum) : jsSub x none = none := by cases x <;> rfl

theorem jsDiv_none_right (x : JsNum) : jsDiv x none = none := by cases x <;> rfl

theorem jsMul_none_right (x : JsNum) : jsMul x none = none := by cases x <;> rfl

theorem fit_max_length (data : List (List ℚ)) :
    (MinMaxScaler.fit data).max.length = (MinMaxScaler.fit data).min.length := by
  cases data with
  | nil => rfl
  | cons r rest => simp [MinMaxScaler.fit]

/-- C8: for every fitted `MinMaxScaler` and input row of any width, `scale`
and `inverseScale` return a row of the input's length (not the fitted column
count), and every position at or beyond the fitted column count is computed
from the missing (`undefined`) min/max as NaN (`none`) rather than raising. -/
theorem scaler_width_behavior (data : List (List ℚ)) (row : List JsNum) :
    ((MinMaxScaler.fit data).scale row).length = row.length ∧
    ((MinMaxScaler.fit data).inverseScale row).length = row.length ∧
    ∀ j, (MinMaxScaler.fit data).min.length ≤ j → j < row.length →
      ((MinMaxScaler.fit data).scale row)[j]? = some none ∧
      ((MinMaxScaler.fit data).inverseScale row)[j]? = some none := by
  refine ⟨mapIdxFrom_length _ _ _, mapIdxFrom_length _ _ _, ?_⟩
  intro j hminlen hj
  have hminN : (MinMaxScaler.fit data).min[j]? = none := List.getElem?_eq_none hminlen
  have hmaxN : (MinMaxScaler.fit data).max[j]? = none := by
    refine List.getElem?_eq_none ?_
    rw [fit_max_length]
    exact hminlen
  have hrow : row[j]? = some (row.getD j none) := by
    rw [List.getD_eq_getElem?_getD, List.getElem?_eq_getElem hj]
    rfl
  constructor
  · rw [scale_getElem?, hrow, hminN, hmaxN]
    simp [jsSub_none_right, jsDiv_none_right, jsSub]
  · rw [inverseScale_getElem?, hrow, hminN, hmaxN]
    simp [jsSub_none_right, jsMul_none_right, jsSub, jsAdd]

/-- Witness for C8: a 2-entry row through a scaler fitted on 1-column data. -/
theorem scaler_width_behavior_witness :
    ((MinMaxScaler.fit [[(1 : ℚ)], [3]]).scale [some 5, some 7]).length = 2 ∧
    ((MinMaxScaler.fit [[(1 : ℚ)], [3]]).scale [some 5, some 7])[1]? = some none :=
  ⟨(scaler_width_behavior [[(1 : ℚ)], [3]] [some 5, some 7]).1,
   ((scaler_width_behavior [[(1 : ℚ)], [3]] [some 5, some 7]).2.2 1
      (by decide) (by decide)).1⟩

set_option maxRecDepth 4000 in
/-- Counterexample for C5: feeding a 9-wide row to a 10-column-fitted scaler
does not raise any error; `scale` silently returns a 9-wide fully numeric
row (here even equal to the input, since each column has min 0 and max 1). -/
theorem scale_mismatch_silent :
    (MinMaxScaler.fit mat10ex).scale (row9ex.map some) = row9ex.map some := by
  norm_num [mat10ex, row9ex, MinMaxScaler.fit, MinMaxScaler.scale, colMin, colMax,
    mapIdxFrom, jsSub, jsDiv, List.range_succ]

/-- C5 (amended): passing a row narrower than the fitted column count to
`scale` is not detected: no error is raised and the scaler silently returns
a row of the input's length whose every entry is a defined number (scaled by
that column's fitted min/max). -/
theorem scale_no_width_check (data : List (List ℚ)) (row : List ℚ) (j : ℕ)
    (hne : data ≠ [])
    (hw : ∀ r ∈ data, r.length = data.headI.length)
    (hrow : row.length ≤ data.headI.length)
    (hj : j < row.length) :
    ((MinMaxScaler.fit data).scale (row.map some)).length = row.length ∧
    ∃ q : ℚ, ((MinMaxScaler.fit data).scale (row.map some))[j]? = some (some q) := by
  cases data with
  | nil => exact absurd rfl hne
  | cons r rest =>
    have hjr : j < r.length := by
      have : row.length ≤ r.length := by simpa using hrow
      omega
    have hmin := fit_min_getElem? r rest j hjr
    have hmax := fit_max_getElem? r rest j hjr
    have hrowj : (row.map some)[j]? = some (some (row.getD j 0)) := by
      rw [List.getElem?_map, List.getD_eq_getElem?_getD, List.getElem?_eq_getElem hj]
      rfl
    refine ⟨by rw [MinMaxScaler.scale, mapIdxFrom_length, List.length_map], ?_⟩
    rw [scale_getElem?, hrowj, hmin, hmax]
    by_cases h0 : colMax (r :: rest) j - colMin (r :: rest) j = 0
    · exact ⟨1 / 2, by simp [jsSub, h0]⟩
    · exact ⟨(row.getD j 0 - colMin (r :: rest) j) /
        (colMax (r :: rest) j - colMin (r :: rest) j), by simp [jsSub, jsDiv, h0]⟩

/-- Witness for C5's amended theorem at the 10-column/9-wide instance. -/
theorem scale_no_width_check_witness :
    mat10ex ≠ [] ∧
    ((MinMaxScaler.fit mat10ex).scale (row9ex.map some)).length = row9ex.length :=
  ⟨by decide, (scale_no_width_check mat10ex row9ex 0 (by decide) (by decide)
      (by decide) (by decide)).1⟩

theorem listSum_map_range (n : ℕ) (f : ℕ → ℚ) :
    ((List.range n).map f).sum = ∑ i in Finset.range n, f i := by
  induction n with
  | zero => simp
  | succ n ih =>
    rw [List.range_succ, List.map_append, List.sum_append, Finset.sum_range_succ, ih]
    simp

/-- C2: the feature builder emits `max(0, len(bars) - LOOKBACK_PERIOD)` rows:
empty output when `len(bars) <= LOOKBACK_PERIOD`, otherwise exactly one
`(FeatureRow, LabelRow)` pair per index `i = LOOKBACK_PERIOD + k` up to
`len(bars) - 1`, with label `[bars[i].close]`.  (`ℕ` subtraction is the
truncated `max(0, len - lookback)`.) -/
theorem prepareLaggedData_spec (data : List IntradayData) :
    (prepareLaggedData data).1.length = data.length - LOOKBACK_PERIOD ∧
    (prepareLaggedData data).2.length = data.length - LOOKBACK_PERIOD ∧
    (data.length ≤ LOOKBACK_PERIOD → prepareLaggedData data = ([], [])) ∧
    ∀ k, k < data.length - LOOKBACK_PERIOD →
      (prepareLaggedData data).1[k]? = some (featureRow data (LOOKBACK_PERIOD + k)) ∧
      (prepareLaggedData data).2[k]? =
        some [(data.getD (LOOKBACK_PERIOD + k) default).close] := by
  by_cases h : data.length ≤ LOOKBACK_PERIOD
  · have he : prepareLaggedData data = ([], []) := by simp [prepareLaggedData, h]
    have hz : data.length - LOOKBACK_PERIOD = 0 := Nat.sub_eq_zero_of_le h
    exact ⟨by simp [he, hz], by simp [he, hz], fun _ => he, fun k hk => absurd hk (by omega)⟩
  · refine ⟨?_, ?_, fun hh => absurd hh h, ?_⟩
    · simp [prepareLaggedData, h]
    · simp [prepareLaggedData, h]
    · intro k hk
      constructor
      · show ((prepareLaggedData data).1)[k]? = _
        simp only [prepareLaggedData, if_neg h]
        rw [List.getElem?_map, List.getElem?_range hk]
        rfl
      · show ((prepareLaggedData data).2)[k]? = _
        simp only [prepareLaggedData, if_neg h]
        rw [List.getElem?_map, List.getElem?_range hk]
        rfl

/-- Witness for C2 on the 16-bar history (two rows; label of row 0 checked). -/
theorem prepareLaggedData_spec_witness :
    0 < bars16.length - LOOKBACK_PERIOD ∧
    (prepareLaggedData bars16).2[0]? =
      some [(bars16.getD (LOOKBACK_PERIOD + 0) default).close] :=
  ⟨by decide, ((prepareLaggedData_spec bars16).2.2.2 0 (by decide)).2⟩

/-- C3: `calculateATR` returns exactly 0 when `index < period`, and otherwise
the arithmetic mean of the true ranges over the window `[index - period,
index)`, each using the preceding bar's close as `prevClose` (or the bar's
own close at index 0). -/
theorem calculateATR_spec (data : List IntradayData) (index period : ℕ) :
    (index < period → calculateATR data index period = 0) ∧
    (period ≤ index → calculateATR data index period =
      (∑ i in Finset.Ico (index - period) index,
        calculateTrueRange (data.getD i default)
          (if i = 0 then (data.getD i default).close
           else (data.getD (i - 1) default).close)) / period) := by
  constructor
  · intro h
    simp [calculateATR, h]
  · intro h
    have hnl : ¬ index < period := not_lt.mpr h
    simp only [calculateATR, if_neg hnl]
    rw [listSum_map_range, Finset.sum_Ico_eq_sum_range]
    have hspan : index - (index - period) = period := by omega
    rw [hspan]

/-- Witness for C3 at a 3-bar history, `index = 2`, `period = 2`. -/
theorem calculateATR_spec_witness :
    2 ≤ 2 ∧ calculateATR w3bars 2 2 =
      (∑ i in Finset.Ico (2 - 2) 2,
        calculateTrueRange (w3bars.getD i default)
          (if i = 0 then (w3bars.getD i default).close
           else (w3bars.getD (i - 1) default).close)) / (2 : ℕ) :=
  ⟨by decide, (calculateATR_spec w3bars 2 2).2 (by decide)⟩

/-- C4: `calculateRSI` returns exactly 50 when `index < period`; and when
`period ≤ index` (with a nonempty window, `0 < period`) and the closes are
non-decreasing across the window `[index - period, index]`, the average loss
is exactly 0 and the result is exactly 100. -/
theorem calculateRSI_spec (data : List IntradayData) (index period : ℕ) :
    (index < period → calculateRSI data index period = 50) ∧
    (period ≤ index → 0 < period →
      (∀ i ∈ Finset.Ico (index - period) index,
        (data.getD i default).close ≤ (data.getD (i + 1) default).close) →
      calculateRSI data index period = 100) := by
  constructor
  · intro h
    simp [calculateRSI, h]
  · intro hpi hp hmono
    have hnl : ¬ index < period := not_lt.mpr hpi
    have hloss : ((List.range period).map (fun k =>
        if 0 < rsiChange data (index - period + 1 + k)
        then (0 : ℚ) else |rsiChange data (index - period + 1 + k)|)).sum = 0 := by
      apply List.sum_eq_zero
      intro x hx
      obtain ⟨k, hk, rfl⟩ := List.mem_map.mp hx
      rw [List.mem_range] at hk
      have hge : 0 ≤ rsiChange data (index - period + 1 + k) := by
        have hmem : index - period + k ∈ Finset.Ico (index - period) index :=
          Finset.mem_Ico.mpr ⟨by omega, by omega⟩
        have hle := hmono _ hmem
        have hi2 : index - period + k + 1 = index - period + 1 + k := by omega
        rw [hi2] at hle
        have hi1 : index - period + 1 + k - 1 = index - period + k := by omega
        simp only [rsiChange, hi1]
        exact sub_nonneg.mpr hle
      by_cases hc : 0 < rsiChange data (index - period + 1 + k)
      · simp [hc]
      · have h0 : rsiChange data (index - period + 1 + k) = 0 :=
          le_antisymm (not_lt.mp hc) hge
        simp [hc, h0]
    simp only [calculateRSI, if_neg hnl]
    rw [hloss, zero_div]
    simp

/-- Witness for C4 on a 3-bar non-decreasing history, `index = 2`, `period = 2`. -/
theorem calculateRSI_spec_witness :
    2 ≤ 2 ∧ calculateRSI w3bars 2 2 = 100 :=
  ⟨by decide, (calculateRSI_spec w3bars 2 2).2 (by decide) (by decide) (by decide)⟩

theorem rsi_formula_bounds (G L : ℚ) (hG : 0 ≤ G) (hL : 0 ≤ L) :
    0 ≤ (if L = 0 then (100 : ℚ) else 100 - 100 / (1 + G / L)) ∧
    (if L = 0 then (100 : ℚ) else 100 - 100 / (1 + G / L)) ≤ 100 := by
  by_cases h0 : L = 0
  · simp [h0]
  · have hRS : 0 ≤ G / L := div_nonneg hG hL
    have hden : (1 : ℚ) ≤ 1 + G / L := le_add_of_nonneg_right hRS
    have hq1 : 100 / (1 + G / L) ≤ 100 := div_le_self (by norm_num) hden
    have hq0 : 0 < 100 / (1 + G / L) := div_pos (by norm_num) (by linarith)
    rw [if_neg h0]
    constructor
    · linarith
    · linarith

/-- C10: for every history, index and positive period, `calculateRSI` stays
in the closed interval `[0, 100]`: 50 on insufficient history, 100 on zero
average loss, and `100 - 100/(1 + RS)` with `RS ≥ 0` otherwise. -/
theorem calculateRSI_bounded (data : List IntradayData) (index period : ℕ)
    (hp : 0 < period) :
    0 ≤ calculateRSI data index period ∧ calculateRSI data index period ≤ 100 := by
  by_cases h : index < period
  · rw [calculateRSI, if_pos h]
    norm_num
  · simp only [calculateRSI, if_neg h]
    have hGsum : 0 ≤ ((List.range period).map (fun k =>
        if 0 < rsiChange data (index - period + 1 + k)
        then rsiChange data (index - period + 1 + k) else (0 : ℚ))).sum := by
      apply List.sum_nonneg
      intro x hx
      obtain ⟨k, hk, rfl⟩ := List.mem_map.mp hx
      split_ifs with hc
      · exact hc.le
      · exact le_refl 0
    have hLsum : 0 ≤ ((List.range period).map (fun k =>
        if 0 < rsiChange data (index - period + 1 + k)
        then (0 : ℚ) else |rsiChange data (index - period + 1 + k)|)).sum := by
      apply List.sum_nonneg
      intro x hx
      obtain ⟨k, hk, rfl⟩ := List.mem_map.mp hx
      split_ifs with hc
      · exact le_refl 0
      · exact abs_nonneg _
    exact rsi_formula_bounds _ _ (div_nonneg hGsum (by positivity))
      (div_nonneg hLsum (by positivity))

/-- Witness for C10 at a concrete history with the default period 14. -/
theorem calculateRSI_bounded_witness :
    0 < 14 ∧ (0 ≤ calculateRSI w3bars 1 14 ∧ calculateRSI w3bars 1 14 ≤ 100) :=
  ⟨by decide, calculateRSI_bounded w3bars 1 14 (by decide)⟩

/-- C9: with `index ≤ data.length` (which includes the prediction-row path's
`index = data.length`), every unconditional bar read of `calculateATR` and
`calculateSMA` is in bounds; both functions depend only on the in-bounds
entries of `data` (so the `getD` default is never consulted on the main
branches); and `calculateSMA`'s insufficient-history branch falls back to 0
through its guarded optional access when `data[index]` does not exist. -/
theorem indicator_reads_inbounds (data : List IntradayData) (index period : ℕ)
    (h : index ≤ data.length) :
    (∀ i ∈ atrAccesses index period, i < data.length) ∧
    (∀ i ∈ smaAccesses index period, i < data.length) ∧
    (∀ data' : List IntradayData,
      (∀ i, i < data.length → data'[i]? = data[i]?) →
      calculateATR data' index period = calculateATR data index period ∧
      (period ≤ index → calculateSMA data' index period = calculateSMA data index period)) ∧
    (index < period → data.length ≤ index → calculateSMA data index period = 0) := by
  have hgetD : ∀ (data' : List IntradayData),
      (∀ i, i < data.length → data'[i]? = data[i]?) →
      ∀ m, m < data.length → data'.getD m default = data.getD m default := by
    intro data' ha m hm
    rw [List.getD_eq_getElem?_getD, List.getD_eq_getElem?_getD, ha m hm]
  refine ⟨?_, ?_, ?_, ?_⟩
  · intro i hi
    simp only [atrAccesses] at hi
    by_cases hip : index < period
    · rw [if_pos hip] at hi
      cases hi
    · rw [if_neg hip] at hi
      rw [List.mem_flatten] at hi
      obtain ⟨l, hl, hil⟩ := hi
      obtain ⟨k, hk, rfl⟩ := List.mem_map.mp hl
      rw [List.mem_range] at hk
      by_cases h0 : index - period + k = 0
      · rw [if_pos h0, List.mem_singleton] at hil
        omega
      · rw [if_neg h0, List.mem_cons, List.mem_singleton] at hil
        rcases hil with rfl | rfl
        · omega
        · omega
  · intro i hi
    simp only [smaAccesses] at hi
    by_cases hip : index < period
    · rw [if_pos hip] at hi
      cases hi
    · rw [if_neg hip] at hi
      obtain ⟨k, hk, rfl⟩ := List.mem_map.mp hi
      rw [List.mem_range] at hk
      omega
  · intro data' hagree
    constructor
    · by_cases hip : index < period
      · simp [calculateATR, hip]
      · simp only [calculateATR, if_neg hip]
        congr 1
        apply congrArg List.sum
        apply List.map_congr_left
        intro k hk
        rw [List.mem_range] at hk
        have hperiod : 0 < period := by omega
        have hi : index - period + k < data.length := by omega
        by_cases h0 : index - period + k = 0
        · simp only [if_pos h0, hgetD data' hagree _ hi]
        · simp only [if_neg h0, hgetD data' hagree _ hi,
            hgetD data' hagree (index - period + k - 1) (by omega)]
    · intro hpi
      have hnl : ¬ index < period := not_lt.mpr hpi
      simp only [calculateSMA, if_neg hnl]
      congr 1
      apply congrArg List.sum
      apply List.map_congr_left
      intro k hk
      rw [List.mem_range] at hk
      have hperiod : 0 < period := by omega
      rw [hgetD data' hagree _ (by omega)]
  · intro h1 h2
    rw [calculateSMA, if_pos h1, List.getElem?_eq_none h2]
    rfl

/-- Witness for C9: the prediction-row shape `index = data.length` with the
default lookback, exercising the guarded SMA fallback. -/
theorem indicator_reads_inbounds_witness :
    3 ≤ w3bars.length ∧ calculateSMA w3bars 3 14 = 0 :=
  ⟨by decide, (indicator_reads_inbounds w3bars 3 14 (by decide)).2.2.2 (by decide) (by decide)⟩

/-- Counterexample for C6: with exactly 15 bars the run does NOT proceed past
validation — the guard `excelData.length < LOOKBACK_PERIOD + 2` (15 < 16)
reports insufficient data and no feature row is ever produced. -/
theorem strategy_15bars_rejected :
    mrlRunStrategy bars15 none = .error .insufficientData := rfl

/-- C6 (amended): 15 bars fail the `lookbackPeriod + 2` validation; the
off-by-one boundary at the minimum viable length is 16 bars, where the run
proceeds past validation and produces exactly 1 training feature row — for
index 14 of the 15-bar training set (which excludes the last bar). -/
theorem strategy_min_length (d : List IntradayData) :
    (d.length = 15 → mrlRunStrategy d none = .error .insufficientData) ∧
    (d.length = 16 →
      mrlRunStrategy d none = .ok (okTraceD (mrlRunStrategy d none)) ∧
      (okTraceD (mrlRunStrategy d none)).X_raw = [featureRow (d.take 15) 14]) := by
  constructor
  · intro h15
    have : d.length < LOOKBACK_PERIOD + 2 := by rw [h15, LOOKBACK_PERIOD]; omega
    simp [mrlRunStrategy, this]
  · intro h16
    have hval : ¬ d.length < LOOKBACK_PERIOD + 2 := by rw [h16, LOOKBACK_PERIOD]; omega
    have h15' : d.length - 1 = 15 := by omega
    have htake : (d.take 15).length = 15 := by
      rw [List.length_take, h16]
      omega
    have hprep : prepareLaggedData (d.take 15) =
        ([featureRow (d.take 15) 14], [[((d.take 15).getD 14 default).close]]) := by
      have hguard : ¬ (d.take 15).length ≤ LOOKBACK_PERIOD := by
        rw [htake, LOOKBACK_PERIOD]; omega
      have hspan : (d.take 15).length - LOOKBACK_PERIOD = 1 := by
        rw [htake, LOOKBACK_PERIOD]
      have hr1 : List.range 1 = [0] := rfl
      simp only [prepareLaggedData, if_neg hguard, hspan, hr1,
        List.map_cons, List.map_nil]
      rfl
    have hrun : mrlRunStrategy d none = .ok
        ⟨[featureRow (d.take 15) 14], [[((d.take 15).getD 14 default).close]],
         MinMaxScaler.fit [featureRow (d.take 15) 14],
         MinMaxScaler.fit ([[((d.take 15).getD 14 default).close]].map
           (fun row => [row.getD 0 0])),
         lastDayFeaturesRaw d none,
         (MinMaxScaler.fit [featureRow (d.take 15) 14]).scale
           ((lastDayFeaturesRaw d none).map some)⟩ := by
      simp only [mrlRunStrategy, if_neg hval, h15', hprep]
      norm_num
    rw [hrun]
    exact ⟨rfl, rfl⟩

/-- Witness for C6's amended theorem at the concrete 16-bar history. -/
theorem strategy_min_length_witness :
    bars16.length = 16 ∧
    (okTraceD (mrlRunStrategy bars16 none)).X_raw = [featureRow (bars16.take 15) 14] :=
  ⟨by decide, ((strategy_min_length bars16).2 (by decide)).2⟩

/-- C7: whenever the run reaches the prediction step, the first feature of
the prediction row is the supplied open-price override when one is given and
otherwise the evaluation day's own recorded open; the prediction row is
scaled with the feature scaler fitted on the training matrix `X_raw`, which
is never refit. -/
theorem strategy_prediction_row (excelData : List IntradayData)
    (newOpenPrice : Option ℚ) (t : StrategyTrace)
    (h : mrlRunStrategy excelData newOpenPrice = .ok t) :
    t.predictionRowRaw[0]? =
      some (newOpenPrice.getD ((excelData.getD (excelData.length - 1) default).«open»)) ∧
    t.featureScaler = MinMaxScaler.fit t.X_raw ∧
    t.predictionRowScaled = t.featureScaler.scale (t.predictionRowRaw.map some) := by
  simp only [mrlRunStrategy] at h
  split_ifs at h
  cases h
  refine ⟨?_, rfl, rfl⟩
  simp only [lastDayFeaturesRaw, List.getElem?_cons_zero]

/-- Witness for C7 at the 16-bar history with an explicit open override. -/
theorem strategy_prediction_row_witness :
    (okTraceD (mrlRunStrategy bars16 (some 42))).predictionRowRaw[0]? =
      some ((some (42 : ℚ)).getD ((bars16.getD (bars16.length - 1) default).«open»)) :=
  (strategy_prediction_row bars16 (some 42)
    (okTraceD (mrlRunStrategy bars16 (some 42))) rfl).1
